import Mathlib

/-!
Verification of the banuid 64-bit ID generator (src/src/lib.rs).

Modelling conventions:
* Rust `u64` values are naturals; every theorem that quantifies over a
  raw id carries the bound `id < 2 ^ 64`.  Rust's `<<` on `u64` discards
  the bits shifted above bit 63, so the shifted timestamp is reduced
  `% 2 ^ 64`; Rust's `-` on `u64` is modelled with the two's-complement
  wraparound semantics (`wrapSub`), the behaviour of the compiled
  library (overflow checks disabled).
* `next_id` holds a mutex, reads the clock once per loop iteration and
  either returns an id or sleeps and retries.  `next_id_step` models one
  loop iteration: the clock reading is an explicit argument and the
  sleep-and-retry case is `none`.  `next_ids` runs a list of successive
  clock readings through the generator, collecting the emitted ids.
* `derive_shard_id` reads the environment (HOSTNAME, /etc/machine-id,
  the pid, the entropy fallback); those side inputs are explicit
  arguments here (byte lists, `none` = the source of identity was
  unavailable), the FNV-1a fold itself is translated verbatim.
-/

namespace Banuid

/-- Modulus of Rust's `u64` arithmetic. -/
def U64 : Nat := 2 ^ 64

/-- Rust `u64` wrapping subtraction (two's-complement wraparound). -/
def wrapSub (a b : Nat) : Nat := (a % U64 + (U64 - b % U64)) % U64

/-- Rust: `const CUSTOM_EPOCH: u64 = 1704067200000` (2024-01-01 UTC). -/
def CUSTOM_EPOCH : Nat := 1704067200000

/-- Rust: `const SHARD_ID_BITS: u8 = 13`. -/
def SHARD_ID_BITS : Nat := 13

/-- Rust: `const SEQUENCE_BITS: u8 = 10`. -/
def SEQUENCE_BITS : Nat := 10

/-- Rust: `const MAX_SHARD_ID: u64 = (1 << SHARD_ID_BITS) - 1`. -/
def MAX_SHARD_ID : Nat := (1 <<< SHARD_ID_BITS) - 1

/-- Rust: `const MAX_SEQUENCE: u64 = (1 << SEQUENCE_BITS) - 1`. -/
def MAX_SEQUENCE : Nat := (1 <<< SEQUENCE_BITS) - 1

/-- Rust: `const SHARD_ID_SHIFT: u8 = SEQUENCE_BITS`. -/
def SHARD_ID_SHIFT : Nat := SEQUENCE_BITS

/-- Rust: `const TIMESTAMP_SHIFT: u8 = SHARD_ID_BITS + SEQUENCE_BITS`. -/
def TIMESTAMP_SHIFT : Nat := SHARD_ID_BITS + SEQUENCE_BITS

/-- Rust: `struct GeneratorState { last_timestamp: u64, sequence: u64 }`. -/
structure GeneratorState where
  last_timestamp : Nat
  sequence : Nat
deriving DecidableEq, Repr

/-- Rust: `pub struct IdGenerator { shard_id: u16, state: Mutex<GeneratorState> }`
(the mutex only serialises `next_id`'s critical section; the state it
guards is modelled directly). -/
structure IdGenerator where
  shard_id : Nat
  state : GeneratorState
deriving DecidableEq, Repr

/-- Rust: the id-packing expression of `next_id`,
`((timestamp - CUSTOM_EPOCH) << TIMESTAMP_SHIFT) | ((shard_id as u64) << SHARD_ID_SHIFT) | sequence`,
with the `u64` subtraction wrapping and the `u64` shift dropping the
bits above bit 63. -/
def encode (timestamp shard_id sequence : Nat) : Nat :=
  ((wrapSub timestamp CUSTOM_EPOCH <<< TIMESTAMP_SHIFT) % U64) |||
    (shard_id <<< SHARD_ID_SHIFT) ||| sequence

/-- Rust: `IdGenerator::with_shard_id` — `shard_id & (MAX_SHARD_ID as u16)`,
fresh state `(0, 0)`.  Argument is a `u16`, i.e. below `2 ^ 16`. -/
def with_shard_id (shard_id : Nat) : IdGenerator :=
  { shard_id := shard_id &&& MAX_SHARD_ID
    state := { last_timestamp := 0, sequence := 0 } }

/-- Rust: one iteration of `next_id`'s loop, the clock reading `now`
passed explicitly.  `none` is the sequence-exhausted case in which the
source drops the lock, sleeps one millisecond and retries. -/
def next_id_step (now : Nat) (g : IdGenerator) : Option (IdGenerator × Nat) :=
  if now = g.state.last_timestamp then
    if MAX_SEQUENCE ≤ g.state.sequence then
      none
    else
      some ({ shard_id := g.shard_id
              state := { last_timestamp := g.state.last_timestamp
                         sequence := g.state.sequence + 1 } },
            encode now g.shard_id (g.state.sequence + 1))
  else
    some ({ shard_id := g.shard_id
            state := { last_timestamp := now, sequence := 0 } },
          encode now g.shard_id 0)

/-- Successive loop iterations of `next_id` calls against the clock
readings `ts`, collecting every emitted id (an exhausted-sequence
iteration emits nothing and the generator retries on the next reading). -/
def next_ids (g : IdGenerator) : List Nat → List Nat
  | [] => []
  | now :: rest =>
    match next_id_step now g with
    | none => next_ids g rest
    | some (g', id) => id :: next_ids g' rest

/-- Rust: `pub fn extract_timestamp(id: u64) -> u64` —
`((id >> TIMESTAMP_SHIFT) as u64) + CUSTOM_EPOCH`. -/
def extract_timestamp (id : Nat) : Nat :=
  (id >>> TIMESTAMP_SHIFT) + CUSTOM_EPOCH

/-- Rust: `pub fn extract_shard_id(id: u64) -> u16` —
`((id >> SHARD_ID_SHIFT) & MAX_SHARD_ID) as u16`. -/
def extract_shard_id (id : Nat) : Nat :=
  (id >>> SHARD_ID_SHIFT) &&& MAX_SHARD_ID

/-- Rust: `pub fn extract_sequence(id: u64) -> u16` — `(id & MAX_SEQUENCE) as u16`. -/
def extract_sequence (id : Nat) : Nat :=
  id &&& MAX_SEQUENCE

/-- Rust: FNV offset basis `14695981039346656037`. -/
def FNV_OFFSET_BASIS : Nat := 14695981039346656037

/-- Rust: `const FNV_PRIME: u64 = 1099511628211`. -/
def FNV_PRIME : Nat := 1099511628211

/-- Rust: the FNV-1a inner loop of `derive_shard_id`,
`hash ^= byte; hash = hash.wrapping_mul(FNV_PRIME)` over a byte slice. -/
def fnvFold (hash : Nat) (bytes : List Nat) : Nat :=
  bytes.foldl (fun h b => ((h ^^^ b) * FNV_PRIME) % U64) hash

/-- Rust: `fn derive_shard_id() -> u16`.  The environment side inputs are
explicit: `hostname` the bytes of `$HOSTNAME` when set, `machine_id` the
trimmed bytes of `/etc/machine-id` when readable, `pid_bytes` the bytes
of the pid's decimal rendering (always folded), `fallback_bytes` the four
little-endian bytes of `get_fallback_random()` (folded only when neither
hostname nor machine id was available). -/
def derive_shard_id (hostname machine_id : Option (List Nat))
    (pid_bytes fallback_bytes : List Nat) : Nat :=
  let h0 := FNV_OFFSET_BASIS
  let h1 := match hostname with
    | some bs => fnvFold h0 bs
    | none => h0
  let h2 := match machine_id with
    | some bs => fnvFold h1 bs
    | none => h1
  let h3 := fnvFold h2 pid_bytes
  let has_identifier := hostname.isSome || machine_id.isSome
  let h4 := if has_identifier then h3 else fnvFold h3 fallback_bytes
  h4 % (MAX_SHARD_ID + 1)

/-- Rust: the `Err` arm of `current_timestamp` —
`base_time ^ (pid_component << 16)` where `base_time` is
`get_fallback_random() as u64` (a `u32` value) and `pid_component` is
`std::process::id() as u64` (a `u32` value). -/
def fallback_timestamp (base_time pid : Nat) : Nat :=
  base_time ^^^ (pid <<< 16)

/-! ### Arithmetic characterisation of the bit packing -/

lemma MAX_SHARD_ID_eq : MAX_SHARD_ID = 8191 := rfl

lemma MAX_SEQUENCE_eq : MAX_SEQUENCE = 1023 := rfl

lemma U64_eq : U64 = 18446744073709551616 := by norm_num [U64]

/-- Disjoint bit ranges let the bitwise or act as addition. -/
lemma lor_eq_add {k b : Nat} (a : Nat) (h : b < 2 ^ k) :
    (a * 2 ^ k) ||| b = a * 2 ^ k + b := by
  rw [Nat.mul_comm a]
  exact (Nat.mul_add_lt_is_or h a).symm

/-- The packed id, written as plain arithmetic: the (wrapped, 41-bit
truncated) timestamp delta above bit 23, the shard in bits 10–22, the
sequence in bits 0–9. -/
lemma encode_eq_arith (t s q : Nat) (hs : s ≤ MAX_SHARD_ID) (hq : q ≤ MAX_SEQUENCE) :
    encode t s q =
      (wrapSub t CUSTOM_EPOCH % 2 ^ 41) * 2 ^ 23 + s * 2 ^ 10 + q := by
  have hs' : s < 2 ^ 13 := by
    have := MAX_SHARD_ID_eq
    omega
  have hq' : q < 2 ^ 10 := by
    have := MAX_SEQUENCE_eq
    omega
  have hU : U64 = 2 ^ 41 * 2 ^ 23 := by norm_num [U64]
  have hshift : wrapSub t CUSTOM_EPOCH <<< TIMESTAMP_SHIFT % U64 =
      (wrapSub t CUSTOM_EPOCH % 2 ^ 41) * 2 ^ 23 := by
    rw [Nat.shiftLeft_eq, hU]
    show wrapSub t CUSTOM_EPOCH * 2 ^ 23 % (2 ^ 41 * 2 ^ 23) = _
    rw [Nat.mul_mod_mul_right]
  have hsq : s <<< SHARD_ID_SHIFT = s * 2 ^ 10 := Nat.shiftLeft_eq s 10
  have h1 : s * 2 ^ 10 + q < 2 ^ 23 := by
    have : s * 2 ^ 10 ≤ 8191 * 2 ^ 10 := Nat.mul_le_mul_right _ (by omega)
    norm_num at this ⊢
    omega
  calc encode t s q
      = (wrapSub t CUSTOM_EPOCH % 2 ^ 41) * 2 ^ 23 ||| s * 2 ^ 10 ||| q := by
        rw [encode, hshift, hsq]
    _ = ((wrapSub t CUSTOM_EPOCH % 2 ^ 41) * 2 ^ 23 + s * 2 ^ 10) ||| q := by
        rw [lor_eq_add _ (by omega : s * 2 ^ 10 < 2 ^ 23)]
    _ = ((wrapSub t CUSTOM_EPOCH % 2 ^ 41) * 2 ^ 13 + s) * 2 ^ 10 ||| q := by
        ring_nf
    _ = ((wrapSub t CUSTOM_EPOCH % 2 ^ 41) * 2 ^ 13 + s) * 2 ^ 10 + q := lor_eq_add _ hq'
    _ = (wrapSub t CUSTOM_EPOCH % 2 ^ 41) * 2 ^ 23 + s * 2 ^ 10 + q := by ring

/-- For an in-range timestamp the wrapping subtraction is the plain one
and already fits in 41 bits. -/
lemma wrapSub_epoch_of_le {t : Nat} (h1 : CUSTOM_EPOCH ≤ t)
    (h2 : t < CUSTOM_EPOCH + 2 ^ 41) :
    wrapSub t CUSTOM_EPOCH % 2 ^ 41 = t - CUSTOM_EPOCH := by
  rw [wrapSub]
  simp only [U64_eq, show CUSTOM_EPOCH = 1704067200000 from rfl] at h1 h2 ⊢
  omega

/-- The packed id of an in-range triple, fully in the clear. -/
lemma encode_closed {t s q : Nat} (ht1 : CUSTOM_EPOCH ≤ t)
    (ht2 : t < CUSTOM_EPOCH + 2 ^ 41) (hs : s ≤ MAX_SHARD_ID) (hq : q ≤ MAX_SEQUENCE) :
    encode t s q = (t - CUSTOM_EPOCH) * 2 ^ 23 + s * 2 ^ 10 + q := by
  rw [encode_eq_arith t s q hs hq, wrapSub_epoch_of_le ht1 ht2]

/-! ### The decoders invert the packing -/

/-- Decoding the sequence field inverts the packing, for every timestamp
(wrapped or not). -/
lemma extract_sequence_encode (t s q : Nat) (hs : s ≤ MAX_SHARD_ID)
    (hq : q ≤ MAX_SEQUENCE) : extract_sequence (encode t s q) = q := by
  have hq' : q < 2 ^ 10 := by
    have := MAX_SEQUENCE_eq
    omega
  rw [extract_sequence, encode_eq_arith t s q hs hq,
    show MAX_SEQUENCE = 2 ^ 10 - 1 by rw [MAX_SEQUENCE_eq]; norm_num,
    Nat.and_pow_two_sub_one_eq_mod,
    show (wrapSub t CUSTOM_EPOCH % 2 ^ 41) * 2 ^ 23 + s * 2 ^ 10 + q =
      2 ^ 10 * ((wrapSub t CUSTOM_EPOCH % 2 ^ 41) * 2 ^ 13 + s) + q from by ring,
    Nat.mul_add_mod, Nat.mod_eq_of_lt hq']

/-- Decoding the shard field inverts the packing, for every timestamp
(wrapped or not). -/
lemma extract_shard_id_encode (t s q : Nat) (hs : s ≤ MAX_SHARD_ID)
    (hq : q ≤ MAX_SEQUENCE) : extract_shard_id (encode t s q) = s := by
  have hs' : s < 2 ^ 13 := by
    have := MAX_SHARD_ID_eq
    omega
  have hq' : q < 2 ^ 10 := by
    have := MAX_SEQUENCE_eq
    omega
  rw [extract_shard_id, encode_eq_arith t s q hs hq,
    show SHARD_ID_SHIFT = 10 from rfl, Nat.shiftRight_eq_div_pow,
    show (wrapSub t CUSTOM_EPOCH % 2 ^ 41) * 2 ^ 23 + s * 2 ^ 10 + q =
      2 ^ 10 * ((wrapSub t CUSTOM_EPOCH % 2 ^ 41) * 2 ^ 13 + s) + q from by ring,
    Nat.mul_add_div (by norm_num), Nat.div_eq_of_lt hq', Nat.add_zero,
    show MAX_SHARD_ID = 2 ^ 13 - 1 by rw [MAX_SHARD_ID_eq]; norm_num,
    Nat.and_pow_two_sub_one_eq_mod,
    show (wrapSub t CUSTOM_EPOCH % 2 ^ 41) * 2 ^ 13 + s =
      2 ^ 13 * (wrapSub t CUSTOM_EPOCH % 2 ^ 41) + s from by ring,
    Nat.mul_add_mod, Nat.mod_eq_of_lt hs']

/-- Decoding the timestamp field inverts the packing as long as the
timestamp delta fits in the 41 timestamp bits. -/
lemma extract_timestamp_encode (t s q : Nat) (ht1 : CUSTOM_EPOCH ≤ t)
    (ht2 : t < CUSTOM_EPOCH + 2 ^ 41) (hs : s ≤ MAX_SHARD_ID)
    (hq : q ≤ MAX_SEQUENCE) : extract_timestamp (encode t s q) = t := by
  have hsq : s * 2 ^ 10 + q < 2 ^ 23 := by
    have h1 : s * 2 ^ 10 ≤ 8191 * 2 ^ 10 := by
      have := MAX_SHARD_ID_eq
      exact Nat.mul_le_mul_right _ (by omega)
    have := MAX_SEQUENCE_eq
    norm_num at h1
    omega
  rw [extract_timestamp, encode_closed ht1 ht2 hs hq,
    show TIMESTAMP_SHIFT = 23 from rfl, Nat.shiftRight_eq_div_pow,
    show (t - CUSTOM_EPOCH) * 2 ^ 23 + s * 2 ^ 10 + q =
      2 ^ 23 * (t - CUSTOM_EPOCH) + (s * 2 ^ 10 + q) from by ring,
    Nat.mul_add_div (by norm_num), Nat.div_eq_of_lt hsq, Nat.add_zero]
  omega

/-! ### Monotone runs -/

/-- Strict growth of the packed id in the lexicographic order of
(timestamp, sequence), for in-range fields. -/
lemma encode_lt_encode {t t' s q q' : Nat} (ht1 : CUSTOM_EPOCH ≤ t)
    (ht2' : t' < CUSTOM_EPOCH + 2 ^ 41) (hle : t ≤ t')
    (hs : s ≤ MAX_SHARD_ID) (hq : q ≤ MAX_SEQUENCE) (hq' : q' ≤ MAX_SEQUENCE)
    (hlex : t < t' ∨ q < q') : encode t s q < encode t' s q' := by
  have ht2 : t < CUSTOM_EPOCH + 2 ^ 41 := Nat.lt_of_le_of_lt hle ht2'
  have ht1' : CUSTOM_EPOCH ≤ t' := Nat.le_trans ht1 hle
  rw [encode_closed ht1 ht2 hs hq, encode_closed ht1' ht2' hs hq']
  have hqn := MAX_SEQUENCE_eq
  rw [hqn] at hq hq'
  rcases hlex with h | h
  · have : t - CUSTOM_EPOCH < t' - CUSTOM_EPOCH := by omega
    have hstep : (t - CUSTOM_EPOCH) * 2 ^ 23 + 2 ^ 23 ≤ (t' - CUSTOM_EPOCH) * 2 ^ 23 := by
      have := Nat.mul_le_mul_right (2 ^ 23) this
      omega
    omega
  · omega

/-- One emitted id is below the next emitted id, and the generator
invariants survive the step: the core induction behind monotonicity and
uniqueness of `next_id` under an in-range, never-regressing clock. -/
lemma next_ids_chain (g : IdGenerator) (ts : List Nat)
    (hsh : g.shard_id ≤ MAX_SHARD_ID)
    (hseq : g.state.sequence ≤ MAX_SEQUENCE)
    (hlo : CUSTOM_EPOCH ≤ g.state.last_timestamp)
    (hhi : g.state.last_timestamp < CUSTOM_EPOCH + 2 ^ 41)
    (hts : ∀ t ∈ ts, CUSTOM_EPOCH ≤ t ∧ t < CUSTOM_EPOCH + 2 ^ 41)
    (hchain : List.Chain' (· ≤ ·) (g.state.last_timestamp :: ts)) :
    List.Chain' (· < ·)
      (encode g.state.last_timestamp g.shard_id g.state.sequence :: next_ids g ts) := by
  induction ts generalizing g with
  | nil => simp [next_ids]
  | cons now rest ih =>
    obtain ⟨hnow1, hnow2⟩ := hts now (List.mem_cons_self now rest)
    rw [List.chain'_cons] at hchain
    obtain ⟨hle, hchain⟩ := hchain
    have hts' : ∀ t ∈ rest, CUSTOM_EPOCH ≤ t ∧ t < CUSTOM_EPOCH + 2 ^ 41 :=
      fun t ht => hts t (List.mem_cons_of_mem now ht)
    by_cases heq : now = g.state.last_timestamp
    · have hchain' : List.Chain' (· ≤ ·) (g.state.last_timestamp :: rest) := by
        rw [heq] at hchain
        exact hchain
      by_cases hmax : MAX_SEQUENCE ≤ g.state.sequence
      · have hstep : next_id_step now g = none := by
          simp [next_id_step, heq, hmax]
        rw [next_ids, hstep]
        exact ih g hsh hseq hlo hhi hts' hchain'
      · have hstep : next_id_step now g =
            some ({ shard_id := g.shard_id
                    state := { last_timestamp := g.state.last_timestamp
                               sequence := g.state.sequence + 1 } },
                  encode now g.shard_id (g.state.sequence + 1)) := by
          simp [next_id_step, heq, hmax]
        rw [next_ids, hstep, List.chain'_cons]
        refine ⟨?_, ?_⟩
        · rw [heq]
          exact encode_lt_encode hlo hhi (Nat.le_refl _) hsh hseq
            (by omega) (Or.inr (Nat.lt_succ_self _))
        · have h2 := ih
            { shard_id := g.shard_id
              state := { last_timestamp := g.state.last_timestamp
                         sequence := g.state.sequence + 1 } }
            hsh (by show g.state.sequence + 1 ≤ MAX_SEQUENCE; omega) hlo hhi hts' hchain'
          rw [heq]
          exact h2
    · have hlt : g.state.last_timestamp < now :=
        Nat.lt_of_le_of_ne hle (fun h => heq h.symm)
      have hstep : next_id_step now g =
          some ({ shard_id := g.shard_id
                  state := { last_timestamp := now, sequence := 0 } },
                encode now g.shard_id 0) := by
        simp [next_id_step, heq]
      rw [next_ids, hstep, List.chain'_cons]
      refine ⟨?_, ?_⟩
      · exact encode_lt_encode hlo hnow2 (Nat.le_of_lt hlt) hsh hseq
          (Nat.zero_le _) (Or.inl hlt)
      · exact ih
          { shard_id := g.shard_id, state := { last_timestamp := now, sequence := 0 } }
          hsh (Nat.zero_le _) hnow1 hnow2 hts' hchain

/-- From a freshly constructed generator, an in-range never-regressing
sequence of clock readings makes `next_id` emit strictly increasing ids. -/
lemma next_ids_fresh_chain (shard : Nat) (ts : List Nat)
    (hts : ∀ t ∈ ts, CUSTOM_EPOCH ≤ t ∧ t < CUSTOM_EPOCH + 2 ^ 41)
    (hchain : List.Chain' (· ≤ ·) ts) :
    List.Chain' (· < ·) (next_ids (with_shard_id shard) ts) := by
  cases ts with
  | nil => simp [next_ids]
  | cons t1 rest =>
    obtain ⟨h1, h2⟩ := hts t1 (List.mem_cons_self t1 rest)
    have hne : t1 ≠ 0 := by
      have hE : CUSTOM_EPOCH = 1704067200000 := rfl
      omega
    have hstep : next_id_step t1 (with_shard_id shard) =
        some ({ shard_id := shard &&& MAX_SHARD_ID
                state := { last_timestamp := t1, sequence := 0 } },
              encode t1 (shard &&& MAX_SHARD_ID) 0) := by
      simp [next_id_step, hne, with_shard_id]
    rw [next_ids, hstep]
    have := next_ids_chain
      { shard_id := shard &&& MAX_SHARD_ID
        state := { last_timestamp := t1, sequence := 0 } }
      rest Nat.and_le_right (by simp [MAX_SEQUENCE_eq]) h1 h2
      (fun t ht => hts t (List.mem_cons_of_mem t1 ht)) hchain
    exact this

/-! ### Claims -/

/-- C1 (amended): the round-trip law holds for every triple with
`s ≤ 8191`, `q ≤ 1023` and a timestamp `t` with
`CUSTOM_EPOCH ≤ t < CUSTOM_EPOCH + 2 ^ 41`, i.e. whose delta fits the 41
timestamp bits; beyond that the shifted delta wraps mod `2 ^ 64` and the
timestamp cannot round-trip. -/
theorem encode_decode_roundtrip (t s q : Nat) (ht1 : CUSTOM_EPOCH ≤ t)
    (ht2 : t < CUSTOM_EPOCH + 2 ^ 41) (hs : s ≤ 8191) (hq : q ≤ 1023) :
    extract_timestamp (encode t s q) = t ∧
      extract_shard_id (encode t s q) = s ∧
      extract_sequence (encode t s q) = q := by
  have hs' : s ≤ MAX_SHARD_ID := by rw [MAX_SHARD_ID_eq]; exact hs
  have hq' : q ≤ MAX_SEQUENCE := by rw [MAX_SEQUENCE_eq]; exact hq
  exact ⟨extract_timestamp_encode t s q ht1 ht2 hs' hq',
    extract_shard_id_encode t s q hs' hq',
    extract_sequence_encode t s q hs' hq'⟩

/-- C1 witness: the round-trip at a concrete in-range triple. -/
theorem encode_decode_roundtrip_witness :
    (CUSTOM_EPOCH ≤ 1704067200123 ∧ 1704067200123 < CUSTOM_EPOCH + 2 ^ 41 ∧
      (42 : Nat) ≤ 8191 ∧ (7 : Nat) ≤ 1023) ∧
    (extract_timestamp (encode 1704067200123 42 7) = 1704067200123 ∧
      extract_shard_id (encode 1704067200123 42 7) = 42 ∧
      extract_sequence (encode 1704067200123 42 7) = 7) :=
  ⟨⟨by decide, by decide, by decide, by decide⟩,
    encode_decode_roundtrip 1704067200123 42 7 (by decide) (by decide)
      (by decide) (by decide)⟩

/-- C1 counterexample: at `t = CUSTOM_EPOCH + 2 ^ 41` (a value above the
epoch, allowed by the claim as stated) the shifted delta is `2 ^ 64`,
which the `u64` shift reduces to `0`, so decoding returns the epoch, a
value strictly below the encoded timestamp. -/
theorem encode_decode_roundtrip_cex :
    encode (CUSTOM_EPOCH + 2 ^ 41) 0 0 = 0 ∧
    extract_timestamp (encode (CUSTOM_EPOCH + 2 ^ 41) 0 0) = CUSTOM_EPOCH ∧
    CUSTOM_EPOCH < CUSTOM_EPOCH + 2 ^ 41 := by decide

/-- C2 (amended): on a freshly constructed generator with shard id 42,
two calls inside the same millisecond decode to `(shard 42, sequence 0)`
and `(shard 42, sequence 1)`: the first call takes the fresh-millisecond
branch and emits sequence 0, the second increments to 1. -/
theorem fresh_same_ms_sequences (T : Nat) (hT : CUSTOM_EPOCH ≤ T) :
    ∃ g1 g2 id1 id2,
      next_id_step T (with_shard_id 42) = some (g1, id1) ∧
      next_id_step T g1 = some (g2, id2) ∧
      extract_shard_id id1 = 42 ∧ extract_sequence id1 = 0 ∧
      extract_shard_id id2 = 42 ∧ extract_sequence id2 = 1 := by
  have hT0 : T ≠ 0 := by
    have hE : CUSTOM_EPOCH = 1704067200000 := rfl
    omega
  have h42 : (42 : Nat) &&& MAX_SHARD_ID = 42 := by decide
  refine ⟨{ shard_id := 42, state := { last_timestamp := T, sequence := 0 } },
    { shard_id := 42, state := { last_timestamp := T, sequence := 1 } },
    encode T 42 0, encode T 42 1, ?_, ?_, ?_, ?_, ?_, ?_⟩
  · simp [next_id_step, with_shard_id, hT0, h42]
  · simp [next_id_step, MAX_SEQUENCE_eq]
  · exact extract_shard_id_encode T 42 0 (by decide) (by decide)
  · exact extract_sequence_encode T 42 0 (by decide) (by decide)
  · exact extract_shard_id_encode T 42 1 (by decide) (by decide)
  · exact extract_sequence_encode T 42 1 (by decide) (by decide)

/-- C2 witness: the two-call scenario at a concrete clock reading. -/
theorem fresh_same_ms_sequences_witness :
    CUSTOM_EPOCH ≤ 1704067200000 ∧
    (∃ g1 g2 id1 id2,
      next_id_step 1704067200000 (with_shard_id 42) = some (g1, id1) ∧
      next_id_step 1704067200000 g1 = some (g2, id2) ∧
      extract_shard_id id1 = 42 ∧ extract_sequence id1 = 0 ∧
      extract_shard_id id2 = 42 ∧ extract_sequence id2 = 1) :=
  ⟨by decide, fresh_same_ms_sequences 1704067200000 (by decide)⟩

/-- C2 counterexample: the first of the two calls decodes to sequence 0,
not 1 as the claim states (and 0 is strictly below 1). -/
theorem fresh_same_ms_sequences_cex :
    (next_id_step 1704067200000 (with_shard_id 42)).map
        (fun r => (extract_shard_id r.2, extract_sequence r.2)) =
      some (42, 0) ∧
    (0 : Nat) < 1 := by decide

/-- C3: the two non-waiting transitions of the state machine — same
millisecond with room in the sequence increments it; a differing clock
reading (including the fresh generator) resets the state to
`(now, 0)` — each returning the encoding of the new state. -/
theorem next_id_transition (g : IdGenerator) (now : Nat) :
    (now = g.state.last_timestamp → g.state.sequence < MAX_SEQUENCE →
      next_id_step now g =
        some ({ shard_id := g.shard_id
                state := { last_timestamp := g.state.last_timestamp
                           sequence := g.state.sequence + 1 } },
              encode now g.shard_id (g.state.sequence + 1))) ∧
    (now ≠ g.state.last_timestamp →
      next_id_step now g =
        some ({ shard_id := g.shard_id
                state := { last_timestamp := now, sequence := 0 } },
              encode now g.shard_id 0)) := by
  constructor
  · intro h1 h2
    simp [next_id_step, h1, Nat.not_le.mpr h2]
  · intro h1
    simp [next_id_step, h1]

/-- C3 witness: both transitions at concrete states. -/
theorem next_id_transition_witness :
    (next_id_step 1704067200005
        { shard_id := 42, state := { last_timestamp := 1704067200005, sequence := 3 } } =
      some ({ shard_id := 42, state := { last_timestamp := 1704067200005, sequence := 4 } },
            encode 1704067200005 42 4)) ∧
    (next_id_step 1704067200006
        { shard_id := 42, state := { last_timestamp := 1704067200005, sequence := 4 } } =
      some ({ shard_id := 42, state := { last_timestamp := 1704067200006, sequence := 0 } },
            encode 1704067200006 42 0)) :=
  ⟨(next_id_transition
      { shard_id := 42, state := { last_timestamp := 1704067200005, sequence := 3 } }
      1704067200005).1 rfl (by decide),
    (next_id_transition
      { shard_id := 42, state := { last_timestamp := 1704067200005, sequence := 4 } }
      1704067200006).2 (by decide)⟩

/-- C4 (amended): from one freshly constructed generator, consecutive
calls return strictly increasing ids provided the successive clock
readings are non-decreasing and stay inside the 41-bit timestamp range
`[CUSTOM_EPOCH, CUSTOM_EPOCH + 2 ^ 41)`; outside that range the shifted
delta wraps and monotonicity is lost (see the counterexample). -/
theorem next_id_monotonic (shard : Nat) (ts : List Nat)
    (hts : ∀ t ∈ ts, CUSTOM_EPOCH ≤ t ∧ t < CUSTOM_EPOCH + 2 ^ 41)
    (hchain : List.Chain' (· ≤ ·) ts) :
    List.Chain' (· < ·) (next_ids (with_shard_id shard) ts) :=
  next_ids_fresh_chain shard ts hts hchain

/-- C4 witness: three in-range readings, two in the same millisecond. -/
theorem next_id_monotonic_witness :
    (∀ t ∈ [1704067200000, 1704067200000, 1704067200001],
      CUSTOM_EPOCH ≤ t ∧ t < CUSTOM_EPOCH + 2 ^ 41) ∧
    List.Chain' (· ≤ ·) [1704067200000, 1704067200000, 1704067200001] ∧
    List.Chain' (· < ·)
      (next_ids (with_shard_id 42) [1704067200000, 1704067200000, 1704067200001]) :=
  ⟨by decide,
    List.chain'_cons.mpr ⟨by decide, List.chain'_pair.mpr (by decide)⟩,
    next_id_monotonic 42 [1704067200000, 1704067200000, 1704067200001]
      (by decide)
      (List.chain'_cons.mpr ⟨by decide, List.chain'_pair.mpr (by decide)⟩)⟩

/-- C4 counterexample: the readings `CUSTOM_EPOCH + 2 ^ 41 - 1` then
`CUSTOM_EPOCH + 2 ^ 41` are non-decreasing (the clock never regresses),
yet the second id, whose shifted delta wrapped to 0, is numerically
below the first — the claim's precondition of a non-regressing clock
alone does not give strictly increasing ids. -/
theorem next_id_monotonic_cex :
    List.Chain' (· ≤ ·) [CUSTOM_EPOCH + 2 ^ 41 - 1, CUSTOM_EPOCH + 2 ^ 41] ∧
    next_ids (with_shard_id 1) [CUSTOM_EPOCH + 2 ^ 41 - 1, CUSTOM_EPOCH + 2 ^ 41] =
      [encode (CUSTOM_EPOCH + 2 ^ 41 - 1) 1 0, encode (CUSTOM_EPOCH + 2 ^ 41) 1 0] ∧
    encode (CUSTOM_EPOCH + 2 ^ 41) 1 0 < encode (CUSTOM_EPOCH + 2 ^ 41 - 1) 1 0 :=
  ⟨List.chain'_pair.mpr (by decide), by decide, by decide⟩

/-- C5 (amended): ids from one generator are pairwise distinct provided
the clock readings are non-decreasing and stay inside the 41-bit
timestamp range; with a regressing clock the generator can repeat an id
exactly (see the counterexample). -/
theorem next_id_unique (shard : Nat) (ts : List Nat)
    (hts : ∀ t ∈ ts, CUSTOM_EPOCH ≤ t ∧ t < CUSTOM_EPOCH + 2 ^ 41)
    (hchain : List.Chain' (· ≤ ·) ts) :
    List.Pairwise (· ≠ ·) (next_ids (with_shard_id shard) ts) := by
  have h := next_ids_fresh_chain shard ts hts hchain
  rw [List.chain'_iff_pairwise] at h
  exact h.imp Nat.ne_of_lt

/-- C5 witness: pairwise-distinct ids over three in-range readings. -/
theorem next_id_unique_witness :
    (∀ t ∈ [1704067200002, 1704067200002, 1704067200002],
      CUSTOM_EPOCH ≤ t ∧ t < CUSTOM_EPOCH + 2 ^ 41) ∧
    List.Chain' (· ≤ ·) [1704067200002, 1704067200002, 1704067200002] ∧
    List.Pairwise (· ≠ ·)
      (next_ids (with_shard_id 7) [1704067200002, 1704067200002, 1704067200002]) :=
  ⟨by decide,
    List.chain'_cons.mpr ⟨by decide, List.chain'_pair.mpr (by decide)⟩,
    next_id_unique 7 [1704067200002, 1704067200002, 1704067200002]
      (by decide)
      (List.chain'_cons.mpr ⟨by decide, List.chain'_pair.mpr (by decide)⟩)⟩

/-- C5 counterexample: with the regressing readings
`CUSTOM_EPOCH, CUSTOM_EPOCH + 1, CUSTOM_EPOCH` the first and the third
call return the same id — the claim does not hold unconditionally over
the clock inputs. -/
theorem next_id_unique_cex :
    next_ids (with_shard_id 1) [CUSTOM_EPOCH, CUSTOM_EPOCH + 1, CUSTOM_EPOCH] =
      [encode CUSTOM_EPOCH 1 0, encode (CUSTOM_EPOCH + 1) 1 0, encode CUSTOM_EPOCH 1 0] ∧
    (next_ids (with_shard_id 1) [CUSTOM_EPOCH, CUSTOM_EPOCH + 1, CUSTOM_EPOCH])[0]? =
      (next_ids (with_shard_id 1) [CUSTOM_EPOCH, CUSTOM_EPOCH + 1, CUSTOM_EPOCH])[2]? := by
  decide

/-- C6: a clock reading strictly below the stored last timestamp is
handled exactly like an advanced clock — the state is set to the
regressed reading with sequence 0 and the encoding of
`(now, shard, 0)` is returned, with no regression detection — and at a
concrete regression the fresh id is numerically below the previously
issued one. -/
theorem next_id_clock_regression (g : IdGenerator) (now : Nat)
    (h : now < g.state.last_timestamp) :
    next_id_step now g =
      some ({ shard_id := g.shard_id
              state := { last_timestamp := now, sequence := 0 } },
            encode now g.shard_id 0) ∧
    next_id_step 1704067200000
        { shard_id := 42, state := { last_timestamp := 1704067200001, sequence := 0 } } =
      some ({ shard_id := 42, state := { last_timestamp := 1704067200000, sequence := 0 } },
            encode 1704067200000 42 0) ∧
    encode 1704067200000 42 0 < encode 1704067200001 42 0 := by
  refine ⟨?_, by decide, by decide⟩
  have hne : now ≠ g.state.last_timestamp := Nat.ne_of_lt h
  simp [next_id_step, hne]

/-- C6 witness: the regression step at a concrete state. -/
theorem next_id_clock_regression_witness :
    (5 : Nat) < 10 ∧
    (next_id_step 5 { shard_id := 7, state := { last_timestamp := 10, sequence := 3 } } =
        some ({ shard_id := 7, state := { last_timestamp := 5, sequence := 0 } },
              encode 5 7 0) ∧
      next_id_step 1704067200000
          { shard_id := 42, state := { last_timestamp := 1704067200001, sequence := 0 } } =
        some ({ shard_id := 42, state := { last_timestamp := 1704067200000, sequence := 0 } },
              encode 1704067200000 42 0) ∧
      encode 1704067200000 42 0 < encode 1704067200001 42 0) :=
  ⟨by decide,
    next_id_clock_regression
      { shard_id := 7, state := { last_timestamp := 10, sequence := 3 } } 5 (by decide)⟩

/-- C7: with the clock unreadable, the fallback timestamp
`base_time ^^^ (pid <<< 16)` still produces an id whenever the step is
not in the exhausted-sequence wait, even though the fallback can lie
below the custom epoch: the `u64` subtraction wraps (no abort) and the
packing stays total. -/
theorem next_id_total_clock_failure (base pid : Nat) (g : IdGenerator)
    (hb : base < 2 ^ 32) (hp : pid < 2 ^ 32)
    (h : g.state.sequence < MAX_SEQUENCE ∨
      fallback_timestamp base pid ≠ g.state.last_timestamp) :
    (next_id_step (fallback_timestamp base pid) g).isSome = true ∧
    fallback_timestamp 0 0 < CUSTOM_EPOCH := by
  refine ⟨?_, by decide⟩
  by_cases heq : fallback_timestamp base pid = g.state.last_timestamp
  · have hseq : g.state.sequence < MAX_SEQUENCE := by
      rcases h with h | h
      · exact h
      · exact absurd heq h
    simp [next_id_step, heq, Nat.not_le.mpr hseq]
  · simp [next_id_step, heq]

/-- C7 witness: clock failure on a fresh generator still yields an id. -/
theorem next_id_total_clock_failure_witness :
    ((1 : Nat) < 2 ^ 32 ∧ (1 : Nat) < 2 ^ 32 ∧
      ((with_shard_id 42).state.sequence < MAX_SEQUENCE ∨
        fallback_timestamp 1 1 ≠ (with_shard_id 42).state.last_timestamp)) ∧
    ((next_id_step (fallback_timestamp 1 1) (with_shard_id 42)).isSome = true ∧
      fallback_timestamp 0 0 < CUSTOM_EPOCH) :=
  ⟨⟨by decide, by decide, by decide⟩,
    next_id_total_clock_failure 1 1 (with_shard_id 42) (by decide) (by decide) (by decide)⟩

/-- C8: constructing a generator from any unsigned 16-bit shard id masks
it to the low 13 bits without rejecting it — in particular 10000 becomes
1808 — and no step of the generator ever changes the stored shard id. -/
theorem shard_masking (s : Nat) (hs : s < 2 ^ 16) :
    (with_shard_id s).shard_id = s &&& 8191 ∧
    (with_shard_id 10000).shard_id = 1808 ∧
    (∀ g now g' id, next_id_step now g = some (g', id) → g'.shard_id = g.shard_id) := by
  refine ⟨by rw [with_shard_id, MAX_SHARD_ID_eq], by decide, ?_⟩
  intro g now g' id hstep
  by_cases heq : now = g.state.last_timestamp
  · by_cases hmax : MAX_SEQUENCE ≤ g.state.sequence
    · simp [next_id_step, heq, hmax] at hstep
    · simp [next_id_step, heq, hmax] at hstep
      obtain ⟨h1, -⟩ := hstep
      rw [← h1]
  · simp [next_id_step, heq] at hstep
    obtain ⟨h1, -⟩ := hstep
    rw [← h1]

/-- C8 witness: the masking at the concrete shard id 10000. -/
theorem shard_masking_witness :
    (10000 : Nat) < 2 ^ 16 ∧
    ((with_shard_id 10000).shard_id = 10000 &&& 8191 ∧
      (with_shard_id 10000).shard_id = 1808 ∧
      (∀ g now g' id, next_id_step now g = some (g', id) → g'.shard_id = g.shard_id)) :=
  ⟨by decide, shard_masking 10000 (by decide)⟩

/-- C9: the derived shard id is the FNV-1a hash of the folded identity
inputs reduced mod 8192, hence at most `MAX_SHARD_ID = 8191` for every
environment input; and decoding a generated id recovers the generator's
own shard id whenever that shard id is in range (as it is for both
constructors). -/
theorem derived_shard_bound (hostname machine_id : Option (List Nat))
    (pid_bytes fallback_bytes : List Nat) :
    derive_shard_id hostname machine_id pid_bytes fallback_bytes ≤ MAX_SHARD_ID ∧
    (∀ g now g' id, g.shard_id ≤ MAX_SHARD_ID → next_id_step now g = some (g', id) →
      extract_shard_id id = g.shard_id) := by
  constructor
  · exact Nat.lt_succ_iff.mp (Nat.mod_lt _ (Nat.succ_pos MAX_SHARD_ID))
  · intro g now g' id hsh hstep
    by_cases heq : now = g.state.last_timestamp
    · by_cases hmax : MAX_SEQUENCE ≤ g.state.sequence
      · simp [next_id_step, heq, hmax] at hstep
      · simp [next_id_step, heq, hmax] at hstep
        obtain ⟨-, h2⟩ := hstep
        rw [← h2]
        exact extract_shard_id_encode g.state.last_timestamp g.shard_id
          (g.state.sequence + 1) hsh (by omega)
    · simp [next_id_step, heq] at hstep
      obtain ⟨-, h2⟩ := hstep
      rw [← h2]
      exact extract_shard_id_encode now g.shard_id 0 hsh (Nat.zero_le _)

/-- C9 witness: a concrete derivation input and a concrete generated id. -/
theorem derived_shard_bound_witness :
    derive_shard_id none none [52, 50] [] ≤ MAX_SHARD_ID ∧
    extract_shard_id (encode 1704067200007 42 1) = 42 :=
  ⟨(derived_shard_bound none none [52, 50] []).1,
    (derived_shard_bound none none [52, 50] []).2
      { shard_id := 42, state := { last_timestamp := 1704067200007, sequence := 0 } }
      1704067200007
      { shard_id := 42, state := { last_timestamp := 1704067200007, sequence := 1 } }
      (encode 1704067200007 42 1) (by decide)
      (by simp [next_id_step, MAX_SEQUENCE_eq])⟩

/-- C10: for every 64-bit input, including ids no generator ever
produced, the decoded shard is at most 8191, the decoded sequence at
most 1023, and the decoded timestamp is the epoch plus the top 41 bits —
at least the epoch and, the addition never overflowing, below `2 ^ 64`. -/
theorem extract_bounds (id : Nat) (h : id < 2 ^ 64) :
    extract_shard_id id ≤ 8191 ∧
    extract_sequence id ≤ 1023 ∧
    CUSTOM_EPOCH ≤ extract_timestamp id ∧
    extract_timestamp id = id >>> 23 + CUSTOM_EPOCH ∧
    extract_timestamp id < 2 ^ 64 := by
  refine ⟨?_, ?_, Nat.le_add_left _ _, rfl, ?_⟩
  · exact le_of_le_of_eq Nat.and_le_right MAX_SHARD_ID_eq
  · exact le_of_le_of_eq Nat.and_le_right MAX_SEQUENCE_eq
  · have h1 : id >>> TIMESTAMP_SHIFT < 2 ^ 41 := by
      rw [show TIMESTAMP_SHIFT = 23 from rfl, Nat.shiftRight_eq_div_pow]
      exact Nat.div_lt_of_lt_mul (by norm_num at h ⊢; omega)
    show id >>> TIMESTAMP_SHIFT + CUSTOM_EPOCH < 2 ^ 64
    have hE : CUSTOM_EPOCH = 1704067200000 := rfl
    norm_num at h1 ⊢
    omega

/-- C10 witness: the bounds at the all-ones 64-bit id. -/
theorem extract_bounds_witness :
    2 ^ 64 - 1 < 2 ^ 64 ∧
    (extract_shard_id (2 ^ 64 - 1) ≤ 8191 ∧
      extract_sequence (2 ^ 64 - 1) ≤ 1023 ∧
      CUSTOM_EPOCH ≤ extract_timestamp (2 ^ 64 - 1) ∧
      extract_timestamp (2 ^ 64 - 1) = (2 ^ 64 - 1) >>> 23 + CUSTOM_EPOCH ∧
      extract_timestamp (2 ^ 64 - 1) < 2 ^ 64) :=
  ⟨by decide, extract_bounds (2 ^ 64 - 1) (by decide)⟩

end Banuid
